import Mathlib

/-!
A shallow embedding of the two source files of the BIAY-Bot repository:
`generate_json.py` (the reading-plan parser) and `biay_bot.py` (the daily
announcer).  Python strings are modelled as Lean `String`, Python integers
as `Int`, Python exceptions as `Except PyExc`, and the JSON-level values
stored in a day record by `JsonVal`.  Pure Python string primitives
(`str.strip`, `str.split`, `str.lower`, `int(...)`, `str.join`) are
modelled explicitly over `List Char` so that every definition is
executable and amenable to induction.
-/

namespace Biay

/-- The kinds of exception the embedded code can raise: `ValueError`
(from `int(...)` or tuple unpacking), `IndexError` (list subscript out of
range) and `TypeError` (subscripting `None`, or `str.join` on a
non-string item). -/
inductive PyExc where
  | valueError
  | indexError
  | typeError
deriving DecidableEq

/-- A reading dictionary `{"book": ..., "chapters": ..., "verses": ...}`
as built by `create_reading` in `generate_json.py`. -/
structure Reading where
  book : String
  chapters : String
  verses : String
deriving DecidableEq

/-- The `{"chapters": ..., "verses": ...}` dictionary returned by
`parse_scripture_reference`. -/
structure ChapterVerse where
  chapters : String
  verses : String
deriving DecidableEq

/-- A JSON-level value as it appears in the `second_reading` field of a
day record (and in the message-line list of `format_daily_message`):
either a JSON string, a reading object, or JSON `null` (Python `None`). -/
inductive JsonVal where
  | str : String → JsonVal
  | refv : Reading → JsonVal
  | null : JsonVal
deriving DecidableEq

/-- One `day_data` record as appended to `result` by `parse_text_to_json`:
`first_reading` and `poem` are reading objects or `None`; `second_reading`
is a JSON value (the code stores either a reading object or the string
`"none"`, see `day_data` below).  Every field is always present in the
dictionary the code builds. -/
structure DayRecord where
  day : Int
  period : String
  first_reading : Option Reading
  second_reading : JsonVal
  poem : Option Reading
deriving DecidableEq

/-! ### Models of the Python string/int primitives used by the sources -/

/-- ASCII whitespace as recognised by Python `str.split()` / `str.strip()`
(Unicode whitespace is not used by the repository's data and is not
modelled). -/
def isPySpace (c : Char) : Bool :=
  c = ' ' || c = '\t' || c = '\n' || c = '\r' || c = '\x0b' || c = '\x0c'

/-- Model of Python `str.strip()`: drop leading and trailing whitespace. -/
def pyStrip (s : String) : String :=
  String.mk (((s.toList.dropWhile isPySpace).reverse.dropWhile isPySpace).reverse)

/-- Model of Python `str.lower()` for the ASCII strings the plan files
contain. -/
def pyLower (s : String) : String :=
  String.mk (s.toList.map Char.toLower)

/-- Split a character list at every character satisfying `p`, keeping
empty pieces — the splitting discipline of Python `str.split(sep)` for a
one-character separator. -/
def pySplitP (p : Char → Bool) : List Char → List (List Char)
  | [] => [[]]
  | c :: cs =>
    if p c then [] :: pySplitP p cs
    else
      match pySplitP p cs with
      | [] => [[c]]
      | q :: qs => (c :: q) :: qs

/-- Model of Python `str.split(sep)` for a one-character separator `sep`:
empty pieces are kept, so the result has one more piece than there are
occurrences of `sep`. -/
def pySplit (sep : Char) (s : String) : List String :=
  (pySplitP (fun c => c == sep) s.toList).map (fun cs => String.mk cs)

/-- Model of Python `str.split()` with no argument: split on runs of
whitespace and drop all empty pieces (so `"".split()` is `[]`). -/
def pySplitWs (s : String) : List String :=
  ((pySplitP isPySpace s.toList).filter (fun t => t ≠ [])).map (fun cs => String.mk cs)

/-- Value of a decimal digit string (`none` when empty or when any
character is not an ASCII digit). -/
def pyDigits (cs : List Char) : Option Nat :=
  if cs = [] then none
  else
    cs.foldl
      (fun acc c =>
        acc.bind (fun n => if c.isDigit then some (n * 10 + (c.toNat - 48)) else none))
      (some 0)

/-- Model of Python `int(s)` for decimal literals: surrounding whitespace
is ignored, an optional single `+`/`-` sign is allowed, then one or more
ASCII digits (underscore digit grouping is not used by the plan files and
is not modelled). -/
def pyIntOpt (s : String) : Option Int :=
  match (pyStrip s).toList with
  | '-' :: cs => (pyDigits cs).map (fun n => -(n : Int))
  | '+' :: cs => (pyDigits cs).map (fun n => (n : Int))
  | cs => (pyDigits cs).map (fun n => (n : Int))

/-- `int(parts[1])` as used by the parser: a non-numeric token raises
`ValueError`. -/
def pyInt (s : String) : Except PyExc Int :=
  match pyIntOpt s with
  | some n => .ok n
  | none => .error .valueError

/-! ### `generate_json.py` -/

/-- `parse_scripture_reference(reference)`: when the token contains `:`
the code unpacks `reference.split(':')` into exactly two variables —
with two or more colons this unpacking raises `ValueError`; with no colon
the whole token becomes the chapters and verses is `"all"`.
(`str.split` never returns an empty list; that case is unreachable.) -/
def parse_scripture_reference (reference : String) : Except PyExc ChapterVerse :=
  match pySplit ':' reference with
  | [chapters, verses] => .ok { chapters := chapters, verses := verses }
  | [_] => .ok { chapters := reference, verses := "all" }
  | [] => .ok { chapters := reference, verses := "all" }
  | _ => .error .valueError

/-- `create_reading(book, reference)`. -/
def create_reading (book reference : String) : Except PyExc Reading :=
  match parse_scripture_reference reference with
  | .ok rd => .ok { book := book, chapters := rd.chapters, verses := rd.verses }
  | .error e => .error e

/-- The list of poem book names tested by the parser
(`['psalm', 'psalms', 'proverb', 'proverbs']`). -/
def poemBooks : List String := ["psalm", "psalms", "proverb", "proverbs"]

/-- The `day_data` dictionary built at the end of a day-line iteration.
`second_reading if second_reading else "none"`: the value is `None` or a
three-key (hence truthy) reading dictionary, so the stored JSON value is
the reading object when present and the string `"none"` otherwise. -/
def day_data (day_number : Int) (current_period : String)
    (first_reading : Option Reading) (second_reading : Option Reading)
    (poem : Option Reading) : DayRecord :=
  { day := day_number
    period := current_period
    first_reading := first_reading
    second_reading :=
      match second_reading with
      | some r => JsonVal.refv r
      | none => JsonVal.str "none"
    poem := poem }

/-- The body of one day-line iteration of `parse_text_to_json` (the code
inside the `try:` block), applied to the whitespace-split token list of
the line.  `.ok none` is the `len(parts) < 4` skip-with-warning path;
`.error e` is an exception that the surrounding `except` catches
(dropping the line).  Token subscripts past the end of `parts` raise
`IndexError`; the pair starting at index 2 is the first reading, the pair
at 4–5 is a poem when its book token lowercases into `poemBooks` and the
second reading otherwise, and in the latter case a pair at 6–7 is
attempted whenever `len(parts) > 6`. -/
def processDayLine (current_period : String) (parts : List String) :
    Except PyExc (Option DayRecord) :=
  match parts with
  | _p0 :: p1 :: p2 :: p3 :: rest =>
    (match pyInt p1 with
     | .error e => .error e
     | .ok day_number =>
       match create_reading p2 p3 with
       | .error e => .error e
       | .ok first_reading =>
         match rest with
         | [] =>
           .ok (some (day_data day_number current_period (some first_reading) none none))
         | p4 :: rest2 =>
           if pyLower p4 ∈ poemBooks then
             match rest2 with
             | [] => .error .indexError
             | p5 :: _ =>
               match create_reading p4 p5 with
               | .error e => .error e
               | .ok poem =>
                 .ok (some (day_data day_number current_period
                   (some first_reading) none (some poem)))
           else
             match rest2 with
             | [] => .error .indexError
             | p5 :: rest3 =>
               match create_reading p4 p5 with
               | .error e => .error e
               | .ok second_reading =>
                 match rest3 with
                 | [] =>
                   .ok (some (day_data day_number current_period
                     (some first_reading) (some second_reading) none))
                 | p6 :: rest4 =>
                   match rest4 with
                   | [] => .error .indexError
                   | p7 :: _ =>
                     match create_reading p6 p7 with
                     | .error e => .error e
                     | .ok poem =>
                       .ok (some (day_data day_number current_period
                         (some first_reading) (some second_reading) (some poem))))
  | _ => .ok none

/-- The token list the parser computes for a line: the line is first
stripped, then split on whitespace (the source's extra
`[part for part in line.split() if part]` filter is subsumed, since
`split()` already drops empty pieces). -/
def lineParts (line : String) : List String :=
  pySplitWs (pyStrip line)

/-- The per-line loop of `parse_text_to_json`: blank lines are skipped, a
line whose first token does not lowercase to `"day"` becomes the new
`current_period` (the full stripped line) and yields no record, and a day
line contributes a record exactly when `processDayLine` returns one —
both the skip-with-warning path and a caught exception just continue with
the next line. -/
def processLines (current_period : String) : List String → List DayRecord
  | [] => []
  | line :: rest =>
    if pyStrip line = "" then processLines current_period rest
    else
      match pySplitWs (pyStrip line) with
      | [] => processLines current_period rest
      | p0 :: tl =>
        if pyLower p0 = "day" then
          match processDayLine current_period (p0 :: tl) with
          | .ok (some rec) => rec :: processLines current_period rest
          | .ok none => processLines current_period rest
          | .error _ => processLines current_period rest
        else
          processLines (pyStrip line) rest

/-- `parse_text_to_json`, applied to the list of lines read from the
file, starting with `current_period = ""`.  The function returns
`json.dumps(result, indent=4)`; the serialised array is modelled by the
record list itself. -/
def parse_text_to_json (lines : List String) : List DayRecord :=
  processLines "" lines

/-! ### `biay_bot.py` -/

/-- One item of the `message` list built by `format_daily_message`: the
code appends formatted strings and, for the second reading, the raw
JSON-level value. -/
def pyJoinItem : JsonVal → Except PyExc String
  | .str s => .ok s
  | _ => .error .typeError

/-- The string extraction pass of `"\n".join(message)`: Python `str.join`
walks the items in order and raises `TypeError` at the first item that is
not a string. -/
def pyJoinStrs : List JsonVal → Except PyExc (List String)
  | [] => .ok []
  | item :: rest =>
    match pyJoinItem item with
    | .error e => .error e
    | .ok s =>
      match pyJoinStrs rest with
      | .error e => .error e
      | .ok ss => .ok (s :: ss)

/-- Model of Python `sep.join(items)` over JSON-level items. -/
def pyJoin (sep : String) (items : List JsonVal) : Except PyExc String :=
  match pyJoinStrs items with
  | .ok strs => .ok (String.intercalate sep strs)
  | .error e => .error e

/-- The `message` list of `format_daily_message` at the moment
`"\n".join(message)` runs.  `dateStr` stands for
`date.strftime('%B %d')`.  Subscripting a `None` first reading or poem
raises `TypeError`; the second-reading block is appended whenever the
JSON value differs from the string `"none"`, and it appends the raw
JSON-level value itself. -/
def message_lines (entry : DayRecord) (dateStr : String) :
    Except PyExc (List JsonVal) :=
  match entry.first_reading with
  | none => .error .typeError
  | some fr =>
    let message : List JsonVal :=
      [ .str ("# Bible in a Year Day " ++ toString entry.day ++ " (" ++ dateStr ++ ") "
          ++ entry.period)
      , .str ""
      , .str "## Readings"
      , .str ""
      , .str "### First Reading"
      , .str (fr.book ++ " Chapter(s) " ++ fr.chapters) ]
    let message :=
      if entry.second_reading ≠ JsonVal.str "none" then
        message ++ [ .str "", .str "### Second Reading", entry.second_reading ]
      else message
    match entry.poem with
    | none => .error .typeError
    | some pm =>
      .ok (message ++ [ .str "", .str "### Poem", .str (pm.book ++ " " ++ pm.chapters) ])

/-- `format_daily_message(entry, date)`: build the message-line list and
join it with newlines. -/
def format_daily_message (entry : DayRecord) (dateStr : String) :
    Except PyExc String :=
  match message_lines entry dateStr with
  | .ok items => pyJoin "\n" items
  | .error e => .error e

/-- Observable outcome of one firing of `send_bible_message`. -/
inductive FiringOutcome where
  | sent : DayRecord → String → FiringOutcome
  | channelError : FiringOutcome
  | noMatchWarning : FiringOutcome
  | errorLogged : FiringOutcome
deriving DecidableEq

/-- The `for entry in bible_data: ... else: ...` loop of
`send_bible_message`: the first record whose `day` equals `day_of_year`
is formatted; then the channel is looked up (`channel_found = false`
models `get_channel` returning `None`, which logs an error and returns);
then the send runs (`sendExc = some e` models `channel.send` raising).
The loop `break`s after that first match; if no record matches, the
`else` arm logs the no-reading warning. -/
def scan_for_day (dateStr : String) (channel_found : Bool) (sendExc : Option PyExc)
    (day_of_year : Int) : List DayRecord → Except PyExc FiringOutcome
  | [] => .ok .noMatchWarning
  | entry :: rest =>
    if entry.day = day_of_year then
      match format_daily_message entry dateStr with
      | .error e => .error e
      | .ok message =>
        if channel_found then
          match sendExc with
          | some e => .error e
          | none => .ok (.sent entry message)
        else .ok .channelError
    else scan_for_day dateStr channel_found sendExc day_of_year rest

/-- The body of the `try:` block of `send_bible_message`: load the Bible
data (the `loadResult` parameter models `load_bible_data`, which may
raise on a missing or malformed file), then scan for today's record. -/
def firing_body (loadResult : Except PyExc (List DayRecord)) (day_of_year : Int)
    (dateStr : String) (channel_found : Bool) (sendExc : Option PyExc) :
    Except PyExc FiringOutcome :=
  match loadResult with
  | .error e => .error e
  | .ok bible_data => scan_for_day dateStr channel_found sendExc day_of_year bible_data

/-- `send_bible_message`: every exception raised by the body is caught by
the `except` clause and logged, making that firing a no-op. -/
def send_bible_message (loadResult : Except PyExc (List DayRecord)) (day_of_year : Int)
    (dateStr : String) (channel_found : Bool) (sendExc : Option PyExc) : FiringOutcome :=
  match firing_body loadResult day_of_year dateStr channel_found sendExc with
  | .ok outcome => outcome
  | .error _ => .errorLogged

/-- A reference token contains at most one colon. -/
def colonLe1 (s : String) : Prop :=
  s.toList.countP (fun c => c == ':') ≤ 1

instance (s : String) : Decidable (colonLe1 s) :=
  inferInstanceAs (Decidable (_ ≤ _))


/-! ### Helper lemmas -/

theorem pySplitP_ne_nil (p : Char → Bool) (cs : List Char) : pySplitP p cs ≠ [] := by
  induction cs with
  | nil => simp [pySplitP]
  | cons c cs ih =>
    simp only [pySplitP]
    split
    · simp
    · match h : pySplitP p cs with
      | [] => simp
      | q :: qs => simp

theorem pySplitP_length (p : Char → Bool) (cs : List Char) :
    (pySplitP p cs).length = cs.countP p + 1 := by
  induction cs with
  | nil => simp [pySplitP]
  | cons c cs ih =>
    simp only [pySplitP, List.countP_cons]
    split
    next hc => simp [ih, hc]
    next hc =>
      match h : pySplitP p cs with
      | [] => exact absurd h (pySplitP_ne_nil p cs)
      | q :: qs =>
        rw [h] at ih
        simp at ih
        simp [hc, ih]

theorem pySplitP_countP_zero (p : Char → Bool) (cs : List Char) (h : cs.countP p = 0) :
    pySplitP p cs = [cs] := by
  induction cs with
  | nil => simp [pySplitP]
  | cons c cs ih =>
    rw [List.countP_cons] at h
    have hc : p c = false := by
      by_cases hp : p c = true
      · simp [hp] at h
      · simpa using hp
    have hcs : cs.countP p = 0 := by omega
    have h2 : pySplitP p cs = [cs] := ih hcs
    simp [pySplitP, hc, h2]

theorem pySplitP_append (p : Char → Bool) (a cs : List Char) (q : List Char)
    (qs : List (List Char)) (ha : a.countP p = 0) (h : pySplitP p cs = q :: qs) :
    pySplitP p (a ++ cs) = (a ++ q) :: qs := by
  induction a with
  | nil => simpa using h
  | cons x a ih =>
    rw [List.countP_cons] at ha
    have hx : p x = false := by
      by_cases hp : p x = true
      · simp [hp] at ha
      · simpa using hp
    have ha2 : a.countP p = 0 := by omega
    have h2 : pySplitP p (a ++ cs) = (a ++ q) :: qs := ih ha2
    simp [pySplitP, hx, h2]

theorem create_reading_ok (b r : String) (h : colonLe1 r) :
    ∃ rd : Reading, create_reading b r = .ok rd ∧ rd.book = b := by
  unfold colonLe1 at h
  simp only [String.toList] at h
  unfold create_reading parse_scripture_reference pySplit
  have hlen : (pySplitP (fun c => c == ':') r.toList).length =
      r.toList.countP (fun c => c == ':') + 1 := pySplitP_length _ _
  match hs : pySplitP (fun c => c == ':') r.toList with
  | [] => exact absurd hs (pySplitP_ne_nil _ _)
  | [x] => exact ⟨⟨b, r, "all"⟩, by simp [hs], rfl⟩
  | [x, y] => exact ⟨⟨b, String.mk x, String.mk y⟩, by simp [hs], rfl⟩
  | x :: y :: z :: t =>
    rw [hs] at hlen
    simp at hlen
    omega

theorem processDayLine_cases (period : String) (parts : List String) (rec : DayRecord)
    (h : processDayLine period parts = .ok (some rec)) :
    ∃ p0 p1 p2 p3 rest n fr, parts = p0 :: p1 :: p2 :: p3 :: rest ∧
      pyInt p1 = .ok n ∧ create_reading p2 p3 = .ok fr ∧
      ((rest = [] ∧ rec = day_data n period (some fr) none none) ∨
       (∃ p4 p5 r2 pm, rest = p4 :: p5 :: r2 ∧ pyLower p4 ∈ poemBooks ∧
          create_reading p4 p5 = .ok pm ∧
          rec = day_data n period (some fr) none (some pm)) ∨
       (∃ p4 p5 sr, rest = [p4, p5] ∧ pyLower p4 ∉ poemBooks ∧
          create_reading p4 p5 = .ok sr ∧
          rec = day_data n period (some fr) (some sr) none) ∨
       (∃ p4 p5 p6 p7 r4 sr pm, rest = p4 :: p5 :: p6 :: p7 :: r4 ∧
          pyLower p4 ∉ poemBooks ∧ create_reading p4 p5 = .ok sr ∧
          create_reading p6 p7 = .ok pm ∧
          rec = day_data n period (some fr) (some sr) (some pm))) := by
  match parts with
  | [] => simp [processDayLine] at h
  | [a] => simp [processDayLine] at h
  | [a, b] => simp [processDayLine] at h
  | [a, b, c] => simp [processDayLine] at h
  | p0 :: p1 :: p2 :: p3 :: rest =>
    refine ⟨p0, p1, p2, p3, rest, ?_⟩
    match hn : pyInt p1 with
    | .error e => simp [processDayLine, hn] at h
    | .ok n =>
      match hcr : create_reading p2 p3 with
      | .error e => simp [processDayLine, hn, hcr] at h
      | .ok fr =>
        refine ⟨n, fr, rfl, rfl, rfl, ?_⟩
        match rest with
        | [] =>
          simp [processDayLine, hn, hcr] at h
          exact Or.inl ⟨rfl, h.symm⟩
        | [p4] =>
          by_cases hp : pyLower p4 ∈ poemBooks <;>
            simp [processDayLine, hn, hcr, hp] at h
        | p4 :: p5 :: rest3 =>
          by_cases hp : pyLower p4 ∈ poemBooks
          · match hc45 : create_reading p4 p5 with
            | .error e => simp [processDayLine, hn, hcr, hp, hc45] at h
            | .ok pm =>
              simp [processDayLine, hn, hcr, hp, hc45] at h
              exact Or.inr (Or.inl ⟨p4, p5, rest3, pm, rfl, hp, hc45, h.symm⟩)
          · match hc45 : create_reading p4 p5 with
            | .error e => simp [processDayLine, hn, hcr, hp, hc45] at h
            | .ok sr =>
              match rest3 with
              | [] =>
                simp [processDayLine, hn, hcr, hp, hc45] at h
                exact Or.inr (Or.inr (Or.inl ⟨p4, p5, sr, rfl, hp, hc45, h.symm⟩))
              | [p6] =>
                simp [processDayLine, hn, hcr, hp, hc45] at h
              | p6 :: p7 :: rest5 =>
                match hc67 : create_reading p6 p7 with
                | .error e => simp [processDayLine, hn, hcr, hp, hc45, hc67] at h
                | .ok pm =>
                  simp [processDayLine, hn, hcr, hp, hc45, hc67] at h
                  exact Or.inr (Or.inr (Or.inr
                    ⟨p4, p5, p6, p7, rest5, sr, pm, rfl, hp, hc45, hc67, h.symm⟩))

theorem processDayLine_total (period p0 p1 p2 p3 : String) (rest : List String) (n : Int)
    (hn : pyInt p1 = .ok n)
    (hlen5 : rest.length ≠ 1)
    (hlen7 : ∀ p4 p5 p6, rest = [p4, p5, p6] → pyLower p4 ∈ poemBooks)
    (hc3 : colonLe1 p3)
    (hc5 : ∀ p4 p5 r2, rest = p4 :: p5 :: r2 → colonLe1 p5)
    (hc7 : ∀ p4 p5 p6 p7 r4, rest = p4 :: p5 :: p6 :: p7 :: r4 →
      pyLower p4 ∉ poemBooks → colonLe1 p7) :
    ∃ rec, processDayLine period (p0 :: p1 :: p2 :: p3 :: rest) = .ok (some rec) ∧
      rec.day = n ∧ rec.period = period := by
  obtain ⟨fr, hcr, -⟩ := create_reading_ok p2 p3 hc3
  match rest with
  | [] =>
    exact ⟨day_data n period (some fr) none none,
      by simp [processDayLine, hn, hcr], rfl, rfl⟩
  | [p4] => simp at hlen5
  | p4 :: p5 :: rest3 =>
    obtain ⟨sr, hc45, -⟩ := create_reading_ok p4 p5 (hc5 p4 p5 rest3 rfl)
    by_cases hp : pyLower p4 ∈ poemBooks
    · exact ⟨day_data n period (some fr) none (some sr),
        by simp [processDayLine, hn, hcr, hp, hc45], rfl, rfl⟩
    · match rest3 with
      | [] =>
        exact ⟨day_data n period (some fr) (some sr) none,
          by simp [processDayLine, hn, hcr, hp, hc45], rfl, rfl⟩
      | [p6] => exact absurd (hlen7 p4 p5 p6 rfl) hp
      | p6 :: p7 :: r5 =>
        obtain ⟨pm, hc67, -⟩ := create_reading_ok p6 p7 (hc7 p4 p5 p6 p7 r5 rfl hp)
        exact ⟨day_data n period (some fr) (some sr) (some pm),
          by simp [processDayLine, hn, hcr, hp, hc45, hc67], rfl, rfl⟩

theorem processLines_day_rec (period line : String) (rest : List String) (p0 : String)
    (tl : List String) (rec : DayRecord) (h1 : pyStrip line ≠ "")
    (h2 : pySplitWs (pyStrip line) = p0 :: tl) (h3 : pyLower p0 = "day")
    (h4 : processDayLine period (p0 :: tl) = .ok (some rec)) :
    processLines period (line :: rest) = rec :: processLines period rest := by
  simp [processLines, h1, h2, h3, h4]

theorem processLines_day_err (period line : String) (rest : List String) (p0 : String)
    (tl : List String) (e : PyExc) (h1 : pyStrip line ≠ "")
    (h2 : pySplitWs (pyStrip line) = p0 :: tl) (h3 : pyLower p0 = "day")
    (h4 : processDayLine period (p0 :: tl) = .error e) :
    processLines period (line :: rest) = processLines period rest := by
  simp [processLines, h1, h2, h3, h4]

theorem processLines_header (period line : String) (rest : List String) (p0 : String)
    (tl : List String) (h1 : pyStrip line ≠ "")
    (h2 : pySplitWs (pyStrip line) = p0 :: tl) (h3 : pyLower p0 ≠ "day") :
    processLines period (line :: rest) = processLines (pyStrip line) rest := by
  simp [processLines, h1, h2, h3]

theorem processLines_mem (lines : List String) (period : String) (rec : DayRecord)
    (h : rec ∈ processLines period lines) :
    ∃ period2 parts, processDayLine period2 parts = .ok (some rec) := by
  induction lines generalizing period with
  | nil => simp [processLines] at h
  | cons line rest ih =>
    simp only [processLines] at h
    split at h
    · exact ih _ h
    · split at h
      · exact ih _ h
      · split at h
        · split at h
          next rec2 hpd =>
            rcases List.mem_cons.mp h with h5 | h5
            · exact ⟨_, _, h5 ▸ hpd⟩
            · exact ih _ h5
          next hpd => exact ih _ h
          next e hpd => exact ih _ h
        · exact ih _ h

theorem scan_skip (dateStr : String) (ch : Bool) (se : Option PyExc) (doy : Int)
    (pre l : List DayRecord) (hpre : ∀ x ∈ pre, x.day ≠ doy) :
    scan_for_day dateStr ch se doy (pre ++ l) = scan_for_day dateStr ch se doy l := by
  induction pre with
  | nil => simp
  | cons x pre ih =>
    have hx : x.day ≠ doy := hpre x (List.mem_cons_self x pre)
    simp only [List.cons_append, scan_for_day, hx, if_false]
    exact ih (fun y hy => hpre y (List.mem_cons_of_mem x hy))

theorem scan_no_match (dateStr : String) (ch : Bool) (se : Option PyExc) (doy : Int)
    (data : List DayRecord) (hdata : ∀ x ∈ data, x.day ≠ doy) :
    scan_for_day dateStr ch se doy data = .ok .noMatchWarning := by
  induction data with
  | nil => rfl
  | cons x data ih =>
    have hx : x.day ≠ doy := hdata x (List.mem_cons_self x data)
    simp only [scan_for_day, hx, if_false]
    exact ih (fun y hy => hdata y (List.mem_cons_of_mem x hy))

/-! ### The claims -/

/-- C4 (corrected/amended): `parse_scripture_reference` returns
chapters/verses split at the colon only when the token has exactly one
colon; a token with no colon yields the whole token as chapters with
verses `"all"`; a token with two or more colons does not return at all —
the tuple unpacking of `reference.split(':')` raises `ValueError`. -/
theorem c4_reference_parsing (s : String) :
    (s.toList.countP (fun c => c == ':') = 0 →
       parse_scripture_reference s = .ok ⟨s, "all"⟩) ∧
    (∀ a b, s.toList = a ++ ':' :: b → a.countP (fun c => c == ':') = 0 →
       b.countP (fun c => c == ':') = 0 →
       parse_scripture_reference s = .ok ⟨String.mk a, String.mk b⟩) ∧
    (2 ≤ s.toList.countP (fun c => c == ':') →
       parse_scripture_reference s = .error .valueError) := by
  refine ⟨?_, ?_, ?_⟩
  · intro h
    have h1 := pySplitP_countP_zero (fun c => c == ':') s.toList h
    unfold parse_scripture_reference pySplit
    rw [h1]
    simp
  · intro a b hab ha hb
    have h2 : pySplitP (fun c => c == ':') b = [b] :=
      pySplitP_countP_zero (fun c => c == ':') b hb
    have h3 : pySplitP (fun c => c == ':') (':' :: b) = [] :: [b] := by
      simp [pySplitP, h2]
    have h4 := pySplitP_append (fun c => c == ':') a (':' :: b) [] [b] ha h3
    unfold parse_scripture_reference pySplit
    rw [hab, h4]
    simp
  · intro h
    have hlen := pySplitP_length (fun c => c == ':') s.toList
    match hs : pySplitP (fun c => c == ':') s.toList with
    | [] => exact absurd hs (pySplitP_ne_nil _ _)
    | [x] =>
      rw [hs] at hlen
      simp only [List.length_cons, List.length_nil] at hlen
      omega
    | [x, y] =>
      rw [hs] at hlen
      simp only [List.length_cons, List.length_nil] at hlen
      omega
    | x :: y :: z :: t =>
      unfold parse_scripture_reference pySplit
      rw [hs]
      simp

/-- C4 counterexample: the claim says every token containing a colon
returns a chapters/verses pair, but `"3:5:7"` raises `ValueError`
instead of returning. -/
theorem c4_counterexample :
    parse_scripture_reference "3:5:7" = .error PyExc.valueError := rfl

/-- C4 witness: the amended theorem evaluated at the claim's own
concrete inputs, `"3:5"` and `"3"`. -/
theorem c4_witness :
    parse_scripture_reference "3:5" = .ok ⟨"3", "5"⟩ ∧
    parse_scripture_reference "3" = .ok ⟨"3", "all"⟩ := by
  constructor
  · have h := (c4_reference_parsing "3:5").2.1 ['3'] ['5'] rfl (by decide) (by decide)
    have e1 : (⟨String.mk ['3'], String.mk ['5']⟩ : ChapterVerse) = ⟨"3", "5"⟩ := by decide
    rw [e1] at h
    exact h
  · exact (c4_reference_parsing "3").1 (by decide)

/-- C1 (corrected/amended): for a day line with at least 4 tokens and a
numeric day token, processing is total and appends a `DayRecord`
PROVIDED the consumed book/reference pairs are complete (token count not
5, and not 7 unless the 5th token is a psalm/proverb book) and each
consumed reference token (index 3, index 5 when consumed, index 7 when
consumed) contains at most one colon.  The record carries the parsed day
number and the current period, and a line splitting into these tokens
prepends exactly that record in `processLines`. -/
theorem c1_day_line_total (period p0 p1 p2 p3 : String) (rest : List String) (n : Int)
    (hday : pyLower p0 = "day")
    (hn : pyInt p1 = .ok n)
    (hlen5 : rest.length ≠ 1)
    (hlen7 : ∀ p4 p5 p6, rest = [p4, p5, p6] → pyLower p4 ∈ poemBooks)
    (hc3 : colonLe1 p3)
    (hc5 : ∀ p4 p5 r2, rest = p4 :: p5 :: r2 → colonLe1 p5)
    (hc7 : ∀ p4 p5 p6 p7 r4, rest = p4 :: p5 :: p6 :: p7 :: r4 →
      pyLower p4 ∉ poemBooks → colonLe1 p7) :
    ∃ rec, processDayLine period (p0 :: p1 :: p2 :: p3 :: rest) = .ok (some rec) ∧
      rec.day = n ∧ rec.period = period ∧
      ∀ line ls, pyStrip line ≠ "" →
        pySplitWs (pyStrip line) = p0 :: p1 :: p2 :: p3 :: rest →
        processLines period (line :: ls) = rec :: processLines period ls := by
  obtain ⟨rec, h1, h2, h3⟩ :=
    processDayLine_total period p0 p1 p2 p3 rest n hn hlen5 hlen7 hc3 hc5 hc7
  exact ⟨rec, h1, h2, h3, fun line ls hl hsp =>
    processLines_day_rec period line ls p0 (p1 :: p2 :: p3 :: rest) rec hl hsp hday h1⟩

/-- C1 counterexample: the claim includes 5-token lines, but
`"Day 1 Genesis 1 Matthew"` (5 tokens, numeric day) raises `IndexError`
at `parts[5]`, is dropped, and contributes no record; likewise the
4-token line `"Day 1 Genesis 1:2:3"` raises `ValueError` in
`parse_scripture_reference` and contributes no record. -/
theorem c1_counterexample :
    (lineParts "Day 1 Genesis 1 Matthew").length = 5 ∧
    pyInt "1" = .ok 1 ∧
    pyLower "Day" = "day" ∧
    processDayLine "" (lineParts "Day 1 Genesis 1 Matthew") = .error PyExc.indexError ∧
    parse_text_to_json ["Day 1 Genesis 1 Matthew"] = [] ∧
    (lineParts "Day 1 Genesis 1:2:3").length = 4 ∧
    processDayLine "" (lineParts "Day 1 Genesis 1:2:3") = .error PyExc.valueError ∧
    parse_text_to_json ["Day 1 Genesis 1:2:3"] = [] :=
  ⟨rfl, rfl, rfl, rfl, rfl, rfl, rfl, rfl⟩

/-- C1 witness: the amended theorem applied to the 4-token line
`"Day 2 Genesis 1:3"`, which does append a record. -/
theorem c1_witness :
    ∃ rec, processDayLine "" ["Day", "2", "Genesis", "1:3"] = .ok (some rec) ∧
      rec.day = 2 ∧ rec.period = "" ∧
      parse_text_to_json ["Day 2 Genesis 1:3"] = [rec] := by
  obtain ⟨rec, h1, h2, h3, h4⟩ :=
    c1_day_line_total "" "Day" "2" "Genesis" "1:3" [] 2 (by decide) rfl (by decide)
      (fun a b c h => nomatch h) (by decide) (fun a b c h => nomatch h)
      (fun a b c d e h => nomatch h)
  refine ⟨rec, h1, h2, h3, ?_⟩
  have h5 := h4 "Day 2 Genesis 1:3" [] (by decide) rfl
  unfold parse_text_to_json
  rw [h5]
  rfl

/-- C9 (confirmed): an exception while processing one day line drops
only that line — `processLines` on that line followed by any remaining
lines equals `processLines` on the remaining lines alone (parsing
continues, never throws) — while a successfully processed day line
prepends its record in input order. -/
theorem c9_line_errors_dropped (period line : String) (rest : List String) (p0 : String)
    (tl : List String) (h1 : pyStrip line ≠ "")
    (h2 : pySplitWs (pyStrip line) = p0 :: tl) (h3 : pyLower p0 = "day") :
    (∀ e, processDayLine period (p0 :: tl) = .error e →
       processLines period (line :: rest) = processLines period rest) ∧
    (∀ rec, processDayLine period (p0 :: tl) = .ok (some rec) →
       processLines period (line :: rest) = rec :: processLines period rest) :=
  ⟨fun e he => processLines_day_err period line rest p0 tl e h1 h2 h3 he,
   fun rec hr => processLines_day_rec period line rest p0 tl rec h1 h2 h3 hr⟩

/-- C9 witness: the non-numeric day line `"Day X Genesis 1"` is
dropped and parsing continues with the next line, still returning the
surviving record. -/
theorem c9_witness :
    processLines "" ["Day X Genesis 1", "Day 7 Genesis 1"] =
      processLines "" ["Day 7 Genesis 1"] ∧
    parse_text_to_json ["Day X Genesis 1", "Day 7 Genesis 1"] =
      [{ day := 7, period := "", first_reading := some ⟨"Genesis", "1", "all"⟩,
         second_reading := .str "none", poem := none }] := by
  have h := (c9_line_errors_dropped "" "Day X Genesis 1" ["Day 7 Genesis 1"] "Day"
    ["X", "Genesis", "1"] (by decide) rfl (by decide)).1 PyExc.valueError rfl
  refine ⟨h, ?_⟩
  unfold parse_text_to_json
  rw [h]
  rfl

/-- C5 (confirmed): a non-blank line whose first token does not
lowercase to `"day"` is a header: it sets `current_period` to the full
stripped line and produces no record; every record a day line produces
carries the `current_period` in force; and the concrete
`"Law and History"` / `"Day 1 Genesis 1:3 Psalm 1"` example yields
exactly the record the claim states. -/
theorem c5_header_period :
    (∀ period line rest p0 tl, pyStrip line ≠ "" →
       pySplitWs (pyStrip line) = p0 :: tl → pyLower p0 ≠ "day" →
       processLines period (line :: rest) = processLines (pyStrip line) rest) ∧
    (∀ period parts rec, processDayLine period parts = .ok (some rec) →
       rec.period = period) ∧
    parse_text_to_json ["Law and History", "Day 1 Genesis 1:3 Psalm 1"] =
      [{ day := 1, period := "Law and History",
         first_reading := some ⟨"Genesis", "1", "3"⟩,
         second_reading := .str "none", poem := some ⟨"Psalm", "1", "all"⟩ }] := by
  refine ⟨fun period line rest p0 tl h1 h2 h3 =>
    processLines_header period line rest p0 tl h1 h2 h3, ?_, rfl⟩
  intro period parts rec h
  obtain ⟨p0, p1, p2, p3, rest, n, fr, -, -, -, hcase⟩ :=
    processDayLine_cases period parts rec h
  rcases hcase with ⟨-, rfl⟩ | ⟨a, b, c, pm, -, -, -, rfl⟩ |
    ⟨a, b, sr, -, -, -, rfl⟩ | ⟨a, b, c, d, e2, sr, pm, -, -, -, -, rfl⟩ <;> rfl

/-- C5 witness: the header clause of the theorem applied to the line
`"Law and History"`. -/
theorem c5_witness :
    processLines "" ["Law and History"] = processLines "Law and History" [] :=
  c5_header_period.1 "" "Law and History" [] "Law" ["and", "History"]
    (by decide) rfl (by decide)

/-- C6 (confirmed): in every record emitted by `parse_text_to_json`,
the `second_reading` field is exactly the string `"none"` or a reading
object — never JSON `null` and never any other value. -/
theorem c6_second_reading_invariant (lines : List String) (rec : DayRecord)
    (h : rec ∈ parse_text_to_json lines) :
    rec.second_reading = JsonVal.str "none" ∨
      ∃ r, rec.second_reading = JsonVal.refv r := by
  obtain ⟨period2, parts, hpd⟩ := processLines_mem lines "" rec h
  obtain ⟨p0, p1, p2, p3, rest, n, fr, -, -, -, hcase⟩ :=
    processDayLine_cases period2 parts rec hpd
  rcases hcase with ⟨-, rfl⟩ | ⟨a, b, c, pm, -, -, -, rfl⟩ |
    ⟨a, b, sr, -, -, -, rfl⟩ | ⟨a, b, c, d, e2, sr, pm, -, -, -, -, rfl⟩
  · exact Or.inl rfl
  · exact Or.inl rfl
  · exact Or.inr ⟨sr, rfl⟩
  · exact Or.inr ⟨sr, rfl⟩

/-- C6 witness: the invariant applied to the record parsed from
`"Day 1 Genesis 1 Psalm 2"`. -/
theorem c6_witness :
    (⟨1, "", some ⟨"Genesis", "1", "all"⟩, .str "none",
        some ⟨"Psalm", "2", "all"⟩⟩ : DayRecord).second_reading =
        JsonVal.str "none" ∨
      ∃ r, (⟨1, "", some ⟨"Genesis", "1", "all"⟩, .str "none",
        some ⟨"Psalm", "2", "all"⟩⟩ : DayRecord).second_reading =
        JsonVal.refv r :=
  c6_second_reading_invariant ["Day 1 Genesis 1 Psalm 2"] _ (by decide)

/-- C7 (confirmed): on a firing, the record used is the first record in
sequence order whose `day` equals `day_of_year` — it is the `find?`
result, and the firing's outcome is the same as if the sequence held
only that record, so later duplicate matches are ignored. -/
theorem c7_first_match (pre : List DayRecord) (entry : DayRecord) (post : List DayRecord)
    (doy : Int) (dateStr : String) (ch : Bool) (se : Option PyExc)
    (hpre : ∀ x ∈ pre, x.day ≠ doy) (hm : entry.day = doy) :
    (pre ++ entry :: post).find? (fun r => decide (r.day = doy)) = some entry ∧
    send_bible_message (.ok (pre ++ entry :: post)) doy dateStr ch se =
      send_bible_message (.ok [entry]) doy dateStr ch se := by
  constructor
  · induction pre with
    | nil => simp [List.find?_cons, hm]
    | cons x pre ih =>
      have hx : x.day ≠ doy := hpre x (List.mem_cons_self x pre)
      simp only [List.cons_append, List.find?_cons]
      have hx2 : decide (x.day = doy) = false := by simp [hx]
      rw [hx2]
      exact ih (fun y hy => hpre y (List.mem_cons_of_mem x hy))
  · have h1 : scan_for_day dateStr ch se doy (entry :: post) =
        scan_for_day dateStr ch se doy [entry] := by
      simp [scan_for_day, hm]
    unfold send_bible_message
    have hb1 : firing_body (Except.ok (pre ++ entry :: post)) doy dateStr ch se =
        scan_for_day dateStr ch se doy (pre ++ entry :: post) := rfl
    have hb2 : firing_body (Except.ok [entry]) doy dateStr ch se =
        scan_for_day dateStr ch se doy [entry] := rfl
    rw [hb1, hb2, scan_skip dateStr ch se doy pre (entry :: post) hpre, h1]

/-- C7 witness: a sequence with two records for day 2 — the firing
uses the first of them. -/
theorem c7_witness :
    ([⟨1, "A", none, .str "none", none⟩,
      ⟨2, "B", some ⟨"Genesis", "1", "all"⟩, .str "none", some ⟨"Psalm", "1", "all"⟩⟩,
      ⟨2, "C", none, .str "none", none⟩] : List DayRecord).find?
        (fun r => decide (r.day = 2)) =
      some ⟨2, "B", some ⟨"Genesis", "1", "all"⟩, .str "none", some ⟨"Psalm", "1", "all"⟩⟩ ∧
    send_bible_message (.ok [⟨1, "A", none, .str "none", none⟩,
      ⟨2, "B", some ⟨"Genesis", "1", "all"⟩, .str "none", some ⟨"Psalm", "1", "all"⟩⟩,
      ⟨2, "C", none, .str "none", none⟩]) 2 "July 02" true none =
    send_bible_message (.ok [⟨2, "B", some ⟨"Genesis", "1", "all"⟩, .str "none",
      some ⟨"Psalm", "1", "all"⟩⟩]) 2 "July 02" true none :=
  c7_first_match [⟨1, "A", none, .str "none", none⟩]
    ⟨2, "B", some ⟨"Genesis", "1", "all"⟩, .str "none", some ⟨"Psalm", "1", "all"⟩⟩
    [⟨2, "C", none, .str "none", none⟩] 2 "July 02" true none (by decide) (by decide)

/-- C8 (confirmed): if no record's `day` equals `day_of_year` the
firing sends nothing and only logs a warning; and every exception the
firing body raises (loading, formatting, sending) is caught, leaving the
firing a logged no-op — no exception escapes `send_bible_message`. -/
theorem c8_no_match_no_escape :
    (∀ (data : List DayRecord) (doy : Int) (dateStr : String) (ch : Bool)
       (se : Option PyExc),
       data.find? (fun r => decide (r.day = doy)) = none →
       send_bible_message (.ok data) doy dateStr ch se = .noMatchWarning) ∧
    (∀ loadResult doy dateStr ch se e,
       firing_body loadResult doy dateStr ch se = .error e →
       send_bible_message loadResult doy dateStr ch se = .errorLogged) := by
  constructor
  · intro data doy d ch se h
    have hall : ∀ x ∈ data, x.day ≠ doy := by
      intro x hx
      have h2 := List.find?_eq_none.mp h x hx
      simpa using h2
    unfold send_bible_message
    have hb : firing_body (Except.ok data) doy d ch se =
        scan_for_day d ch se doy data := rfl
    rw [hb, scan_no_match d ch se doy data hall]
  · intro loadR doy d ch se e h
    unfold send_bible_message
    rw [h]

/-- C8 witness: a day with no matching record yields the warning
outcome, and a failing load yields the caught-and-logged outcome. -/
theorem c8_witness :
    send_bible_message (.ok [⟨1, "", some ⟨"Genesis", "1", "all"⟩, .str "none", none⟩])
      2 "January 02" true none = .noMatchWarning ∧
    send_bible_message (.error .valueError) 1 "January 01" true none = .errorLogged :=
  ⟨c8_no_match_no_escape.1 [⟨1, "", some ⟨"Genesis", "1", "all"⟩, .str "none", none⟩]
      2 "January 02" true none rfl,
   c8_no_match_no_escape.2 (.error .valueError) 1 "January 01" true none
      PyExc.valueError rfl⟩

/-- C3 (confirmed): in a day line with a pair at indices 2-3 and a
further pair at 4-5, when a record is produced: if token 4 lowercases
into the psalm/proverb set the 4-5 pair becomes the poem and
`second_reading` is `"none"`; otherwise the 4-5 pair becomes
`second_reading` and a complete pair at 6-7, when present, becomes the
poem.  The line `"Day 5 Exodus 2 Matthew 3 Proverbs 4"` yields exactly
the record the claim states. -/
theorem c3_second_pair_routing (period p0 p1 p2 p3 p4 p5 : String) (rest : List String)
    (rec : DayRecord)
    (h : processDayLine period (p0 :: p1 :: p2 :: p3 :: p4 :: p5 :: rest) =
      .ok (some rec)) :
    (pyLower p4 ∈ poemBooks →
       rec.second_reading = JsonVal.str "none" ∧
       ∃ pm, create_reading p4 p5 = .ok pm ∧ rec.poem = some pm) ∧
    (pyLower p4 ∉ poemBooks →
       (∃ sr, create_reading p4 p5 = .ok sr ∧ rec.second_reading = JsonVal.refv sr) ∧
       ∀ p6 p7 r2, rest = p6 :: p7 :: r2 →
         ∃ pm, create_reading p6 p7 = .ok pm ∧ rec.poem = some pm) ∧
    parse_text_to_json ["Day 5 Exodus 2 Matthew 3 Proverbs 4"] =
      [{ day := 5, period := "", first_reading := some ⟨"Exodus", "2", "all"⟩,
         second_reading := .refv ⟨"Matthew", "3", "all"⟩,
         poem := some ⟨"Proverbs", "4", "all"⟩ }] := by
  match hn : pyInt p1 with
  | .error e => simp [processDayLine, hn] at h
  | .ok n =>
  match hcr : create_reading p2 p3 with
  | .error e => simp [processDayLine, hn, hcr] at h
  | .ok fr =>
  refine ⟨?_, ?_, rfl⟩
  · intro hp
    match hc45 : create_reading p4 p5 with
    | .error e => simp [processDayLine, hn, hcr, hp, hc45] at h
    | .ok pm =>
      simp [processDayLine, hn, hcr, hp, hc45] at h
      subst h
      exact ⟨rfl, pm, rfl, rfl⟩
  · intro hp
    match hc45 : create_reading p4 p5 with
    | .error e => simp [processDayLine, hn, hcr, hp, hc45] at h
    | .ok sr =>
    match rest with
    | [] =>
      simp [processDayLine, hn, hcr, hp, hc45] at h
      subst h
      exact ⟨⟨sr, rfl, rfl⟩, fun p6 p7 r2 heq => nomatch heq⟩
    | [p6] => simp [processDayLine, hn, hcr, hp, hc45] at h
    | p6 :: p7 :: r5 =>
      match hc67 : create_reading p6 p7 with
      | .error e => simp [processDayLine, hn, hcr, hp, hc45, hc67] at h
      | .ok pm =>
        simp [processDayLine, hn, hcr, hp, hc45, hc67] at h
        subst h
        refine ⟨⟨sr, rfl, rfl⟩, ?_⟩
        intro a b c heq
        injection heq with e1 heq
        injection heq with e2 heq
        subst e1
        subst e2
        exact ⟨pm, hc67, rfl⟩

/-- C3 witness: the routing theorem applied to the concrete line
`"Day 5 Exodus 2 Matthew 3 Proverbs 4"`. -/
theorem c3_witness :
    ∃ sr, create_reading "Matthew" "3" = .ok sr ∧
      (⟨5, "", some ⟨"Exodus", "2", "all"⟩, .refv ⟨"Matthew", "3", "all"⟩,
        some ⟨"Proverbs", "4", "all"⟩⟩ : DayRecord).second_reading = JsonVal.refv sr := by
  have h := c3_second_pair_routing "" "Day" "5" "Exodus" "2" "Matthew" "3"
    ["Proverbs", "4"]
    ⟨5, "", some ⟨"Exodus", "2", "all"⟩, .refv ⟨"Matthew", "3", "all"⟩,
      some ⟨"Proverbs", "4", "all"⟩⟩ rfl
  exact (h.2.1 (by decide)).1

/-- C2 (corrected/amended): when `second_reading` is a reading object,
`format_daily_message` does place the raw JSON-level value directly into
the message-line list between the `### Second Reading` header and the
`### Poem` section (not reformatted as book/chapters) — but because that
value is an object and not a string, `"\n".join(message)` raises
`TypeError`, so the function raises instead of returning the described
message. -/
theorem c2_second_reading_raw (entry : DayRecord) (r : Reading) (dateStr : String)
    (h : entry.second_reading = JsonVal.refv r) :
    format_daily_message entry dateStr = .error PyExc.typeError ∧
    ∀ fr pm, entry.first_reading = some fr → entry.poem = some pm →
      message_lines entry dateStr = .ok
        [ .str ("# Bible in a Year Day " ++ toString entry.day ++ " (" ++ dateStr
            ++ ") " ++ entry.period)
        , .str "", .str "## Readings", .str ""
        , .str "### First Reading"
        , .str (fr.book ++ " Chapter(s) " ++ fr.chapters)
        , .str "", .str "### Second Reading", JsonVal.refv r
        , .str "", .str "### Poem", .str (pm.book ++ " " ++ pm.chapters) ] := by
  have hne : entry.second_reading ≠ JsonVal.str "none" := by
    rw [h]
    simp
  constructor
  · match hfr : entry.first_reading with
    | none => simp [format_daily_message, message_lines, hfr]
    | some fr =>
      match hpm : entry.poem with
      | none => simp [format_daily_message, message_lines, hfr, hpm]
      | some pm =>
        simp [format_daily_message, message_lines, hfr, hpm, hne, h,
          pyJoin, pyJoinStrs, pyJoinItem]
  · intro fr pm hfr hpm
    simp [message_lines, hfr, hpm, hne, h]

/-- C2 counterexample: the claim says the formatter returns the
Markdown message; on a concrete entry with an object-valued
`second_reading` it raises `TypeError` and returns nothing. -/
theorem c2_counterexample :
    format_daily_message
      ⟨3, "Law and History", some ⟨"Genesis", "1", "all"⟩,
        .refv ⟨"Matthew", "3", "all"⟩, some ⟨"Psalm", "1", "all"⟩⟩
      "January 03" = .error PyExc.typeError := rfl

/-- C2 witness: the amended theorem applied to a concrete entry with
an object-valued `second_reading`. -/
theorem c2_witness :
    format_daily_message
      ⟨4, "P", some ⟨"Exodus", "2", "all"⟩, .refv ⟨"Mark", "5", "all"⟩,
        some ⟨"Psalm", "9", "all"⟩⟩ "July 04" = .error PyExc.typeError :=
  (c2_second_reading_raw
    ⟨4, "P", some ⟨"Exodus", "2", "all"⟩, .refv ⟨"Mark", "5", "all"⟩,
      some ⟨"Psalm", "9", "all"⟩⟩ ⟨"Mark", "5", "all"⟩ "July 04" rfl).1

/-- C10 (confirmed): for an entry whose `poem` is `null` — which the
parser produces for every 4-token day line — `format_daily_message`
raises `TypeError` at the unconditional Poem section, so
`send_bible_message` catches it and delivers no message even though a
matching record exists. -/
theorem c10_null_poem (entry : DayRecord) (fr : Reading) (dateStr : String)
    (hfr : entry.first_reading = some fr) (hp : entry.poem = none) :
    format_daily_message entry dateStr = .error PyExc.typeError ∧
    (∀ pre post doy ch se, (∀ x ∈ pre, x.day ≠ doy) → entry.day = doy →
       send_bible_message (.ok (pre ++ entry :: post)) doy dateStr ch se =
         .errorLogged) ∧
    (∀ period q0 q1 q2 q3 rec, processDayLine period [q0, q1, q2, q3] = .ok (some rec) →
       rec.poem = none) := by
  have hfmt : format_daily_message entry dateStr = .error PyExc.typeError := by
    simp [format_daily_message, message_lines, hfr, hp]
  refine ⟨hfmt, ?_, ?_⟩
  · intro pre post doy ch se hpre hmd
    have h1 : scan_for_day dateStr ch se doy (entry :: post) =
        .error PyExc.typeError := by
      simp [scan_for_day, hmd, hfmt]
    unfold send_bible_message
    have hb : firing_body (Except.ok (pre ++ entry :: post)) doy dateStr ch se =
        scan_for_day dateStr ch se doy (pre ++ entry :: post) := rfl
    rw [hb, scan_skip dateStr ch se doy pre (entry :: post) hpre, h1]
  · intro period q0 q1 q2 q3 rec h
    obtain ⟨a0, a1, a2, a3, rest, n, fr2, heq, -, -, hcase⟩ :=
      processDayLine_cases period _ rec h
    injection heq with e0 heq
    injection heq with e1 heq
    injection heq with e2 heq
    injection heq with e3 heq
    rcases hcase with ⟨hr, rfl⟩ | ⟨a, b, c, pm, hr, -⟩ |
      ⟨a, b, sr, hr, -⟩ | ⟨a, b, c, d, e2, sr, pm, hr, -⟩
    · rfl
    · rw [hr] at heq
      exact nomatch heq
    · rw [hr] at heq
      exact nomatch heq
    · rw [hr] at heq
      exact nomatch heq

/-- C10 witness: the theorem applied to a concrete entry with a
`null` poem: formatting raises and the firing ends as a logged error. -/
theorem c10_witness :
    format_daily_message
      (⟨1, "", some ⟨"Genesis", "1", "all"⟩, .str "none", none⟩ : DayRecord)
      "January 01" = .error PyExc.typeError ∧
    send_bible_message
      (.ok [⟨1, "", some ⟨"Genesis", "1", "all"⟩, .str "none", none⟩])
      1 "January 01" true none = .errorLogged := by
  have h := c10_null_poem
    ⟨1, "", some ⟨"Genesis", "1", "all"⟩, .str "none", none⟩
    ⟨"Genesis", "1", "all"⟩ "January 01" rfl rfl
  exact ⟨h.1, h.2.1 [] [] 1 true none (fun x hx => nomatch hx) rfl⟩

end Biay
